import Mathlib

/-!
Verification development for the YouTube timestamp-finder service
(`src/main.py`).  The Python source is shallowly embedded: pure string
processing is translated to executable functions over `List Char` /
`String`, floating point numbers are idealised as `ℚ`, the integer
operations use the semantics of the corresponding Python operators
(`//` is floor division, `%` has the sign of the divisor, `int()`
truncates toward zero), and every network call or external library
call is an opaque input: its outcome (`Except`/`Option` value) is a
parameter of the embedded function.  Character classes (`\d`, `\w`,
whitespace) are read as their ASCII core, which is the range the
program's data exercises.
-/

namespace YTTF

/-- Character class `[0-9A-Za-z_-]` of the video-id patterns in
`extract_video_id` (src/main.py, lines 36-46). -/
def isIdChar (c : Char) : Bool :=
  (('0' ≤ c && c ≤ '9') || ('A' ≤ c && c ≤ 'Z') || ('a' ≤ c && c ≤ 'z')
    || c = '_' || c = '-')

/-- Matcher for `([0-9A-Za-z_-]{11})`: succeeds iff the list starts with
eleven id characters, returning that capture group. -/
def grab11 (l : List Char) : Option (List Char) :=
  if (l.take 11).length = 11 && (l.take 11).all isIdChar then some (l.take 11) else none

/-- Attempt of the first pattern `(?:v=|\/)([0-9A-Za-z_-]{11}).*` at the
head of the list.  The trailing `.*` always matches and binds nothing,
so it does not appear.  The alternation tries `v=` and then `/`; the
two branches start with different characters, so no backtracking
between them is possible at a fixed position. -/
def pat1At : List Char → Option (List Char)
  | 'v' :: '=' :: rest => grab11 rest
  | '/' :: rest => grab11 rest
  | _ => none

/-- Attempt of the second pattern `youtu\.be\/([0-9A-Za-z_-]{11})` at the
head of the list. -/
def pat2At : List Char → Option (List Char)
  | 'y' :: 'o' :: 'u' :: 't' :: 'u' :: '.' :: 'b' :: 'e' :: '/' :: rest => grab11 rest
  | _ => none

/-- Attempt of the third pattern `embed\/([0-9A-Za-z_-]{11})` at the head
of the list. -/
def pat3At : List Char → Option (List Char)
  | 'e' :: 'm' :: 'b' :: 'e' :: 'd' :: '/' :: rest => grab11 rest
  | _ => none

/-- Python's `re.search`: try the pattern at each position from the left
and return the first (leftmost) capture. -/
def searchPat (patAt : List Char → Option (List Char)) : List Char → Option (List Char)
  | [] => none
  | c :: rest =>
    match patAt (c :: rest) with
    | some x => some x
    | none => searchPat patAt rest

/-- Embedding of `extract_video_id` (src/main.py, lines 36-46): the three
patterns are tried in order over the whole URL; the first one that
matches anywhere yields the id, otherwise a `ValueError` is raised. -/
def extract_video_id (url : String) : Except String String :=
  match searchPat pat1At url.data with
  | some id => .ok (String.mk id)
  | none =>
    match searchPat pat2At url.data with
    | some id => .ok (String.mk id)
    | none =>
      match searchPat pat3At url.data with
      | some id => .ok (String.mk id)
      | none => .error ("Could not extract video ID from URL: " ++ url)

/-- Variant of `extract_video_id` that consults only the first pattern;
used to state the refinement claim that the second and third patterns
are redundant. -/
def extract_video_id_pat1_only (url : String) : Except String String :=
  match searchPat pat1At url.data with
  | some id => .ok (String.mk id)
  | none => .error ("Could not extract video ID from URL: " ++ url)

example : extract_video_id "https://www.youtube.com/watch?v=dQw4w9WgXcQ" = .ok "dQw4w9WgXcQ" := rfl
example : extract_video_id "https://youtu.be/dQw4w9WgXcQ" = .ok "dQw4w9WgXcQ" := rfl
example : extract_video_id "https://www.youtube.com/embed/dQw4w9WgXcQ" = .ok "dQw4w9WgXcQ" := rfl
example : extract_video_id "nonsense" = .error "Could not extract video ID from URL: nonsense" := rfl

/-- Python's `str.split(":")`: split the character list at every colon.
The result is never empty, and an input without colons yields the
one-element list of the input. -/
def split_colon : List Char → List (List Char)
  | [] => [[]]
  | c :: rest =>
    if c = ':' then [] :: split_colon rest
    else
      match split_colon rest with
      | [] => [[c]]
      | p :: ps => (c :: p) :: ps

/-- Python's `str.zfill(2)`: left-pad with `'0'` to width 2, inserting
the padding after a leading sign character. -/
def zfill2 (l : List Char) : List Char :=
  if 2 ≤ l.length then l
  else
    let pad := List.replicate (2 - l.length) '0'
    match l with
    | '+' :: rest => '+' :: (pad ++ rest)
    | '-' :: rest => '-' :: (pad ++ rest)
    | _ => pad ++ l

/-- Embedding of the normalization step at the end of
`find_timestamp_with_llm` (src/main.py, lines 388-395): split on `:`;
two fields are read as `MM:SS` with `00` hours, three fields are
zero-padded to two digits each, and every other shape collapses to
`00:00:00`. -/
def normalize_timestamp (ts : String) : String :=
  match split_colon ts.data with
  | [p0, p1] => String.mk (['0', '0', ':'] ++ zfill2 p0 ++ ':' :: zfill2 p1)
  | [p0, p1, p2] => String.mk (zfill2 p0 ++ ':' :: zfill2 p1 ++ ':' :: zfill2 p2)
  | _ => "00:00:00"

example : normalize_timestamp "5:47" = "00:05:47" := rfl
example : normalize_timestamp "01:02:03" = "01:02:03" := rfl
example : normalize_timestamp "abc" = "00:00:00" := rfl
example : normalize_timestamp "1:2:3" = "01:02:03" := rfl

/-- Python's `int()` on a rational value: truncation toward zero.  On a
rational in lowest terms this is the T-division of the numerator by the
denominator. -/
def rat_trunc (q : ℚ) : ℤ :=
  q.num.tdiv q.den

/-- Zero-pad a rendered number on the left to width 2 (`f"{n:02d}"` for a
non-negative `n`). -/
def pad_zero2 (s : String) : String :=
  if 2 ≤ s.length then s else String.mk (List.replicate (2 - s.length) '0') ++ s

/-- Python's `f"{n:02d}"`: a negative number already fills the width with
its sign, a non-negative one is zero-padded to two characters. -/
def int02 (n : ℤ) : String :=
  if n < 0 then toString n else pad_zero2 (toString n)

/-- Embedding of `seconds_to_hhmmss` (src/main.py, lines 327-332):
truncate the seconds to an integer, decompose with Python's `//` (floor
division, `Int.fdiv`) and `%` (sign of the divisor, `Int.emod`), and
render each field zero-padded to two digits. -/
def seconds_to_hhmmss (seconds : ℚ) : String :=
  let t := rat_trunc seconds
  let h := Int.fdiv t 3600
  let m := Int.fdiv (Int.emod t 3600) 60
  let s := Int.emod t 60
  int02 h ++ ":" ++ int02 m ++ ":" ++ int02 s

example : seconds_to_hhmmss 347 = "00:05:47" := by
  simp [seconds_to_hhmmss, rat_trunc]
  rfl

/-- Python's `str.strip()` on a character list: drop whitespace from both
ends. -/
def stripList (l : List Char) : List Char :=
  ((l.dropWhile Char.isWhitespace).reverse.dropWhile Char.isWhitespace).reverse

/-- Python's `str.strip()` lifted to `String`. -/
def py_strip (s : String) : String :=
  String.mk (stripList s.data)

/-- One caption transcript entry: `{"text": ..., "start": ...}` with the
start offset in seconds.  A transcript is a list of these. -/
structure TranscriptEntry where
  text : String
  start : ℚ
deriving DecidableEq

/-- One element of an event's `segs` list; `utf8` is `none` when the key
is absent (Python reads it with `seg.get('utf8', '')`). -/
structure CaptionSeg where
  utf8 : Option String
deriving DecidableEq

/-- One element of the decoded JSON `events` list.  `tStartMs` is `none`
when absent (read with `event.get('tStartMs', 0)`), and `segs` is
`none` when the event has no `segs` key at all. -/
structure CaptionEvent where
  tStartMs : Option ℚ
  segs : Option (List CaptionSeg)
deriving DecidableEq

/-- Embedding of the JSON branch of `fetch_captions_from_tracks`
(src/main.py, lines 78-87): every event carrying a `segs` list
contributes `start = tStartMs / 1000` and the stripped concatenation of
its segment texts, and entries that are blank after stripping are
dropped. -/
def parse_caption_events (events : List CaptionEvent) : List TranscriptEntry :=
  events.filterMap fun ev =>
    match ev.segs with
    | none => none
    | some segs =>
      let text := py_strip (String.join (segs.map fun sg => sg.utf8.getD ""))
      if text = "" then none
      else some ⟨text, (ev.tStartMs.getD 0) / 1000⟩

example :
    parse_caption_events
      [⟨some 1000, some [⟨some "hel"⟩, ⟨some "lo"⟩]⟩, ⟨some 2500, some [⟨some " "⟩]⟩,
       ⟨some 99, none⟩, ⟨some 4000, some [⟨some "world"⟩]⟩]
      = [⟨"hello", 1000 / 1000⟩, ⟨"world", 4000 / 1000⟩] := rfl

/-- Python `"...".replace('&amp;', '&')` specialised to its pattern:
scan left to right, replace every occurrence, and do not rescan the
replacement text. -/
def decAmp : List Char → List Char
  | '&' :: 'a' :: 'm' :: 'p' :: ';' :: rest => '&' :: decAmp rest
  | c :: rest => c :: decAmp rest
  | [] => []

/-- Replacement of `&lt;` by `<`. -/
def decLt : List Char → List Char
  | '&' :: 'l' :: 't' :: ';' :: rest => '<' :: decLt rest
  | c :: rest => c :: decLt rest
  | [] => []

/-- Replacement of `&gt;` by `>`. -/
def decGt : List Char → List Char
  | '&' :: 'g' :: 't' :: ';' :: rest => '>' :: decGt rest
  | c :: rest => c :: decGt rest
  | [] => []

/-- Replacement of `&#39;` by an apostrophe. -/
def decApos : List Char → List Char
  | '&' :: '#' :: '3' :: '9' :: ';' :: rest => '\'' :: decApos rest
  | c :: rest => c :: decApos rest
  | [] => []

/-- Replacement of `&quot;` by a double quote. -/
def decQuot : List Char → List Char
  | '&' :: 'q' :: 'u' :: 'o' :: 't' :: ';' :: rest => '"' :: decQuot rest
  | c :: rest => c :: decQuot rest
  | [] => []

/-- Replacement of `&nbsp;` by a space. -/
def decNbsp : List Char → List Char
  | '&' :: 'n' :: 'b' :: 's' :: 'p' :: ';' :: rest => ' ' :: decNbsp rest
  | c :: rest => c :: decNbsp rest
  | [] => []

/-- Entity decoding chain of the caption XML fallback (src/main.py,
lines 96-97): the six `str.replace` calls applied in source order. -/
def decode_entities (s : String) : String :=
  String.mk (decNbsp (decQuot (decApos (decGt (decLt (decAmp s.data))))))

/-- Entity decoding chain of the youtubetranscript.com mirror
(src/main.py, lines 273-274), which lacks the `&nbsp;` replacement. -/
def decode_entities_five (s : String) : String :=
  String.mk (decQuot (decApos (decGt (decLt (decAmp s.data)))))

example : decode_entities "a &amp; b&#39;s &lt;x&gt; &quot;q&quot;&nbsp;!" = "a & b's <x> \"q\" !" := rfl

/-- Consume an exact literal at the head of the list, returning the rest. -/
def dropLit (lit l : List Char) : Option (List Char) :=
  if lit.isPrefixOf l then some (l.drop lit.length) else none

theorem dropLit_le {lit l r : List Char} (h : dropLit lit l = some r) :
    r.length + lit.length = l.length := by
  unfold dropLit at h
  split at h
  · cases h
    next hp =>
      have := (List.isPrefixOf_iff_prefix.mp hp).length_le
      simp [List.length_drop]
      omega
  · cases h

/-- Character class `[\d.]` of the start-attribute capture. -/
def isFloatChar (c : Char) : Bool :=
  c.isDigit || c = '.'

/-- Class `[^>]` of the attribute-skipping run. -/
def notGtChar (c : Char) : Bool :=
  if c = '>' then false else true

/-- Class `[^<]` of the text capture. -/
def notLtChar (c : Char) : Bool :=
  if c = '<' then false else true

/-- Single attempt of the caption-XML regex
`<text start="([\d.]+)"[^>]*>([^<]*)</text>` at the head of the list,
returning the two capture groups and the unconsumed rest.  Each
quantified class excludes the character that must follow it, so the
greedy `takeWhile`/`dropWhile` readings are exact. -/
def xmlTagAt (l : List Char) : Option (List Char × List Char × List Char) :=
  match dropLit "<text start=\"".data l with
  | none => none
  | some r1 =>
    match dropLit ['"'] (r1.dropWhile isFloatChar) with
    | none => none
    | some r2 =>
      match dropLit ['>'] (r2.dropWhile notGtChar) with
      | none => none
      | some r3 =>
        match dropLit "</text>".data (r3.dropWhile notLtChar) with
        | none => none
        | some r4 =>
          if (r1.takeWhile isFloatChar).isEmpty then none
          else some (r1.takeWhile isFloatChar, r3.takeWhile notLtChar, r4)

theorem xmlTagAt_length {l g1 g2 r : List Char}
    (h : xmlTagAt l = some (g1, g2, r)) : r.length < l.length := by
  unfold xmlTagAt at h
  split at h
  · cases h
  next r1 h1 =>
    split at h
    · cases h
    next r2 h2 =>
      split at h
      · cases h
      next r3 h3 =>
        split at h
        · cases h
        next r4 h4 =>
          split at h
          · cases h
          cases h
          have e1 := dropLit_le h1
          have e2 := dropLit_le h2
          have e3 := dropLit_le h3
          have e4 := dropLit_le h4
          have d1 := (List.dropWhile_suffix (l := r1) isFloatChar).length_le
          have d2 := (List.dropWhile_suffix (l := r2) notGtChar).length_le
          have d3 := (List.dropWhile_suffix (l := r3) notLtChar).length_le
          simp at e1 e2 e3 e4
          omega

/-- Fuel-indexed worker for the `re.finditer` scan: attempt a match at
every position from the left, and continue after the end of each
match.  The fuel only serves structural recursion; by
`xmlTagAt_length` every step strictly shortens the list, so
`l.length` fuel is always enough (`scanXml_cons_found` /
`scanXml_cons_miss` below recover the intended recursion equations). -/
def scanXmlFuel : Nat → List Char → List (List Char × List Char)
  | 0, _ => []
  | _, [] => []
  | fuel + 1, c :: rest =>
    match xmlTagAt (c :: rest) with
    | some (g1, g2, r) => (g1, g2) :: scanXmlFuel fuel r
    | none => scanXmlFuel fuel rest

/-- Embedding of `re.finditer` with the caption-XML pattern: the list of
(start attribute, raw text) capture pairs of the non-overlapping
leftmost matches. -/
def scanXml (l : List Char) : List (List Char × List Char) :=
  scanXmlFuel l.length l

theorem scanXmlFuel_nil (f : Nat) : scanXmlFuel f [] = [] := by
  cases f <;> rfl

theorem scanXmlFuel_congr : ∀ (f f' : Nat) (l : List Char),
    l.length ≤ f → l.length ≤ f' → scanXmlFuel f l = scanXmlFuel f' l := by
  intro f
  induction f using Nat.strong_induction_on with
  | _ f ih =>
    intro f' l hf hf'
    cases l with
    | nil => rw [scanXmlFuel_nil, scanXmlFuel_nil]
    | cons c rest =>
      simp only [List.length_cons] at hf hf'
      cases f with
      | zero => omega
      | succ a =>
        cases f' with
        | zero => omega
        | succ b =>
          simp only [scanXmlFuel]
          cases hx : xmlTagAt (c :: rest) with
          | some trip =>
            obtain ⟨g1, g2, r⟩ := trip
            have hr := xmlTagAt_length hx
            simp only [List.length_cons] at hr
            exact congrArg _ (ih a (by omega) b r (by omega) (by omega))
          | none =>
            exact ih a (by omega) b rest (by omega) (by omega)

theorem scanXml_cons_found {c : Char} {rest g1 g2 r : List Char}
    (h : xmlTagAt (c :: rest) = some (g1, g2, r)) :
    scanXml (c :: rest) = (g1, g2) :: scanXml r := by
  have hr := xmlTagAt_length h
  simp only [scanXml, List.length_cons, scanXmlFuel, h]
  rw [scanXmlFuel_congr rest.length r.length r (by simp at hr; omega) (le_refl _)]

theorem scanXml_cons_miss {c : Char} {rest : List Char}
    (h : xmlTagAt (c :: rest) = none) :
    scanXml (c :: rest) = scanXml rest := by
  simp only [scanXml, List.length_cons, scanXmlFuel, h]

/-- Value of a digit string (the digits of a `[\d.]+` capture). -/
def digitsToNat (l : List Char) : Nat :=
  l.foldl (fun acc c => acc * 10 + (c.toNat - '0'.toNat)) 0

/-- Python's `float()` on a string drawn from `[\d.]+`: at most one dot
and at least one digit, otherwise a `ValueError`. -/
def parseFloatDigits (l : List Char) : Option ℚ :=
  let intPart := l.takeWhile Char.isDigit
  match l.drop intPart.length with
  | [] => if intPart.isEmpty then none else some (digitsToNat intPart : ℚ)
  | '.' :: frac =>
    if frac.all Char.isDigit then
      if intPart.isEmpty && frac.isEmpty then none
      else some ((digitsToNat intPart : ℚ) + (digitsToNat frac : ℚ) / (10 : ℚ) ^ frac.length)
    else none
  | _ => none

example : parseFloatDigits "347".data = some 347 := by
  simp [parseFloatDigits, digitsToNat]
example : parseFloatDigits "1.5".data = some (1 + 5 / 10) := by
  simp [parseFloatDigits, digitsToNat]
example : parseFloatDigits ".".data = none := rfl
example : parseFloatDigits "1.2.3".data = none := rfl

/-- Shared loop body of the two XML caption scrapes (src/main.py, lines
93-99 and 270-276): convert each captured start attribute with
`float()` (whose `ValueError` aborts the whole strategy), decode
entities in the captured text, strip it, and keep non-blank entries. -/
def xml_entries (decode : String → String) :
    List (List Char × List Char) → Except String (List TranscriptEntry)
  | [] => .ok []
  | (g1, g2) :: rest =>
    match parseFloatDigits g1 with
    | none => .error ("could not convert string to float: " ++ String.mk g1)
    | some st =>
      match xml_entries decode rest with
      | .error e => .error e
      | .ok tail =>
        let text := py_strip (decode (String.mk g2))
        if text = "" then .ok tail else .ok (⟨text, st⟩ :: tail)

/-- XML fallback branch of `fetch_captions_from_tracks` (src/main.py,
lines 92-99). -/
def parse_caption_xml (body : String) : Except String (List TranscriptEntry) :=
  xml_entries decode_entities (scanXml body.data)

example :
    parse_caption_xml "<text start=\"1.5\" dur=\"2\">a &amp; b&#39;s</text><text start=\"7\">x</text>"
      = .ok [⟨"a & b's", 1 + 5 / 10⟩, ⟨"x", 7⟩] := by
  simp [parse_caption_xml]
  rfl

/-- One entry of the player response's caption track list:
`{languageCode: ..., baseUrl: ...}`, each key possibly absent. -/
structure CaptionTrack where
  languageCode : Option String
  baseUrl : Option String
deriving DecidableEq

/-- Python truthiness of an optional string: `None` and `""` are falsy. -/
def pyTruthy : Option String → Bool
  | none => false
  | some s => if s = "" then false else true

/-- Python's `str.startswith` as a predicate on the decoded language
code. -/
def langStartsEn (t : CaptionTrack) : Bool :=
  "en".data.isPrefixOf (t.languageCode.getD "").data

/-- Caption-URL selection of `fetch_captions_from_tracks` (src/main.py,
lines 51-65): an empty track list fails; otherwise the base URL of the
first track whose language code starts with `en` is preferred, falling
back to the first track's base URL when the preferred one is missing
or empty, and failing if that candidate is missing or empty too. -/
def select_caption_url (tracks : List CaptionTrack) : Except String String :=
  match tracks with
  | [] => .error "No captions available"
  | first :: _ =>
    let fromEn := (tracks.find? langStartsEn).bind fun t => t.baseUrl
    let url := if pyTruthy fromEn then fromEn else first.baseUrl
    match url with
    | some u => if u = "" then .error "Could not find caption URL" else .ok u
    | none => .error "Could not find caption URL"

/-- Query-parameter tagging of the selected URL (src/main.py, lines
68-71). -/
def add_fmt (url : String) : String :=
  if url.data.contains '?' then url ++ "&fmt=json3" else url ++ "?fmt=json3"

/-- Body of the HTTP response for a caption URL.  `jsonEvents` is the
decoded `events` list when the body parses as a JSON mapping (the
`events` key defaulting to the empty list) and `none` when JSON
decoding fails; `text` is the raw body used by the XML fallback. -/
structure CaptionBody where
  jsonEvents : Option (List CaptionEvent)
  text : String

/-- Entries produced by the JSON branch of `fetch_captions_from_tracks`
for this body (empty when JSON decoding failed). -/
def json_transcript (body : CaptionBody) : List TranscriptEntry :=
  match body.jsonEvents with
  | some events => parse_caption_events events
  | none => []

/-- Parsing stage of `fetch_captions_from_tracks` (src/main.py, lines
76-104): the JSON branch wins if it produces at least one entry;
otherwise the XML fallback runs on the raw text, and an empty result
raises `Could not parse captions`. -/
def parse_captions (body : CaptionBody) : Except String (List TranscriptEntry) :=
  if json_transcript body = [] then
    match parse_caption_xml body.text with
    | .error e => .error e
    | .ok t => if t = [] then .error "Could not parse captions" else .ok t
  else .ok (json_transcript body)

/-- Embedding of `fetch_captions_from_tracks` (src/main.py, lines
49-104).  The network fetch of the tagged caption URL is opaque: its
outcome is the function argument `fetch`. -/
def fetch_captions_from_tracks (tracks : List CaptionTrack)
    (fetch : String → Except String CaptionBody) : Except String (List TranscriptEntry) :=
  match select_caption_url tracks with
  | .error e => .error e
  | .ok url =>
    match fetch (add_fmt url) with
    | .error e => .error e
    | .ok body => parse_captions body

/-- Decoded player response of an Innertube call: the playability status
and reason (each possibly absent) and the caption track list, with the
nested `captions.playerCaptionsTracklistRenderer.captionTracks`
defaults already folded in. -/
structure PlayerResponse where
  playabilityStatus : Option String
  playabilityReason : Option String
  captionTracks : List CaptionTrack

/-- Shared embedding of `get_transcript_innertube_android` / `_ios` /
`_tv` (src/main.py, lines 107-229): the three differ only in the opaque
request payload, so the player call's outcome `player` and the caption
fetch `fetch` are the parameters.  A playability status of `ERROR`
raises `Video unavailable`; otherwise the track list is handed to
`fetch_captions_from_tracks`. -/
def get_transcript_innertube (player : Except String PlayerResponse)
    (fetch : String → Except String CaptionBody) : Except String (List TranscriptEntry) :=
  match player with
  | .error e => .error e
  | .ok pr =>
    if pr.playabilityStatus = some "ERROR" then
      .error ("Video unavailable: " ++ pr.playabilityReason.getD "Unknown")
    else
      fetch_captions_from_tracks pr.captionTracks fetch

/-- One item of a kome.ai transcript payload; `text`/`start` are `none`
when the key is absent. -/
structure MirrorItem where
  text : Option String
  start : Option ℚ
deriving DecidableEq

/-- Decoded kome.ai response body: either a JSON array of items or a
mapping whose `transcript` key (possibly absent) holds the items. -/
inductive KomeJson where
  | arr (items : List MirrorItem)
  | obj (transcriptField : Option (List MirrorItem))
deriving DecidableEq

/-- Entries extracted from a decoded kome.ai body (src/main.py, lines
247-257): the array shape needs both `text` and `start` on an item,
the mapping shape needs `text` with `start` defaulting to 0. -/
def kome_entries (data : KomeJson) : List TranscriptEntry :=
  match data with
  | .arr items =>
    items.filterMap fun it =>
      match it.text, it.start with
      | some tx, some st => some (⟨tx, st⟩ : TranscriptEntry)
      | _, _ => none
  | .obj (some items) =>
    items.filterMap fun it =>
      it.text.map fun tx => (⟨tx, it.start.getD 0⟩ : TranscriptEntry)
  | .obj none => []

/-- The kome.ai attempt (src/main.py, lines 243-261).  `resp` is the
opaque outcome of the HTTP call: `none` when the request or JSON
decoding raised (the bare `except` turns any such error into a fall
through), otherwise the status code and decoded body.  The result is
`some transcript` exactly when the attempt returns with a 200 status
and a non-empty entry list, `none` when control falls through to the
next mirror. -/
def kome_transcript (resp : Option (Nat × KomeJson)) : Option (List TranscriptEntry) :=
  match resp with
  | none => none
  | some (status, data) =>
    if status = 200 then
      if kome_entries data = [] then none else some (kome_entries data)
    else none

/-- The youtubetranscript.com attempt (src/main.py, lines 264-280).
`resp` is the opaque outcome of the HTTP call (`none` when it raised);
a non-200 status or any parse error (including `float()` failures,
caught by the bare `except`) falls through. -/
def ytc_transcript (resp : Option (Nat × String)) : Option (List TranscriptEntry) :=
  match resp with
  | none => none
  | some (status, body) =>
    if status = 200 then
      match xml_entries decode_entities_five (scanXml body.data) with
      | .error _ => none
      | .ok t => if t = [] then none else some t
    else none

/-- Embedding of `get_transcript_third_party` (src/main.py, lines
232-282): try kome.ai, then youtubetranscript.com, and raise when both
fall through. -/
def get_transcript_third_party (kome : Option (Nat × KomeJson))
    (ytc : Option (Nat × String)) : Except String (List TranscriptEntry) :=
  match kome_transcript kome with
  | some t => .ok t
  | none =>
    match ytc_transcript ytc with
    | some t => .ok t
    | none => .error "Third-party transcript APIs failed"

/-- One snippet of the `youtube_transcript_api` library's fetch result
(strategy 1 reads `s.text` and `s.start` from each). -/
structure Snippet where
  text : String
  start : ℚ
deriving DecidableEq

/-- Opaque outside world of one `get_transcript` call: the outcome of
the captions-library fetch, of the three Innertube player calls and
their caption fetches, and of the two third-party mirrors. -/
structure TranscriptEnv where
  ytFetch : Except String (List Snippet)
  androidPlayer : Except String PlayerResponse
  androidFetch : String → Except String CaptionBody
  iosPlayer : Except String PlayerResponse
  iosFetch : String → Except String CaptionBody
  tvPlayer : Except String PlayerResponse
  tvFetch : String → Except String CaptionBody
  kome : Option (Nat × KomeJson)
  ytc : Option (Nat × String)

/-- The labelled outcomes of the five strategies of `get_transcript`
(src/main.py, lines 285-324), in source order. -/
def strategy_results (env : TranscriptEnv) :
    List (String × Except String (List TranscriptEntry)) :=
  [("yt-api: ", env.ytFetch.map fun l => l.map fun s => ⟨s.text, s.start⟩),
   ("android: ", get_transcript_innertube env.androidPlayer env.androidFetch),
   ("ios: ", get_transcript_innertube env.iosPlayer env.iosFetch),
   ("tv: ", get_transcript_innertube env.tvPlayer env.tvFetch),
   ("3rd-party: ", get_transcript_third_party env.kome env.ytc)]

theorem strategy_results_length (env : TranscriptEnv) :
    (strategy_results env).length = 5 := rfl

/-- Outcome of the `k`-th strategy (0-based, in source order). -/
def nth_strategy (env : TranscriptEnv) (k : Fin 5) :
    Except String (List TranscriptEntry) :=
  ((strategy_results env).get (Fin.cast (strategy_results_length env).symm k)).2

/-- The try/except ladder of `get_transcript`: run the outcomes in
order, short-circuiting on the first success; each failure appends its
label and the error message truncated to 50 characters; exhaustion
raises the joined diagnostic.  The second component counts how many
strategies were invoked (the strategies after the first success are
never run). -/
def run_chain : List (String × Except String (List TranscriptEntry)) →
    List String → Except String (List TranscriptEntry) × Nat
  | [], errs => (.error ("All transcript methods failed: " ++ String.intercalate "; " errs), 0)
  | (label, r) :: rest, errs =>
    match r with
    | .ok t => (.ok t, 1)
    | .error e =>
      let p := run_chain rest (errs ++ [label ++ e.take 50])
      (p.1, p.2 + 1)

/-- Embedding of `get_transcript` (src/main.py, lines 285-324). -/
def get_transcript (env : TranscriptEnv) : Except String (List TranscriptEntry) :=
  (run_chain (strategy_results env) []).1

/-- Number of strategies invoked by `get_transcript` on this
environment. -/
def invoked_count (env : TranscriptEnv) : Nat :=
  (run_chain (strategy_results env) []).2

/-- The `k`-th strategy is invoked iff it is within the invoked prefix
of the chain. -/
def strategy_invoked (env : TranscriptEnv) (k : Fin 5) : Prop :=
  k.val < invoked_count env

/-- Value found under the `timestamp` key of the model's JSON answer: a
string, or any non-string JSON value (number, list, mapping, null,
boolean), on which Python's `.split` raises `AttributeError`. -/
inductive LlmFieldVal where
  | str (s : String)
  | nonStr
deriving DecidableEq

/-- Outcome of `json.loads` on the raw model response: decoding failed
(`JSONDecodeError`, caught), decoded to a non-mapping (`.get` raises
`AttributeError`, caught), or decoded to a mapping whose `timestamp`
key is absent or holds `field`. -/
inductive LlmJsonOutcome where
  | notJson
  | nonMapping
  | mapping (timestampField : Option LlmFieldVal)
deriving DecidableEq

/-- Attempt of `\d{1,2}:\d{2}:\d{2}` at the head of the list with the
greedy two-digit hour. -/
def tsAt2 : List Char → Option (List Char)
  | a :: b :: ':' :: c :: d :: ':' :: e :: f :: _ =>
    if a.isDigit && b.isDigit && c.isDigit && d.isDigit && e.isDigit && f.isDigit
    then some [a, b, ':', c, d, ':', e, f] else none
  | _ => none

/-- Attempt of `\d{1,2}:\d{2}:\d{2}` at the head of the list after
backtracking to a one-digit hour. -/
def tsAt1 : List Char → Option (List Char)
  | a :: ':' :: c :: d :: ':' :: e :: f :: _ =>
    if a.isDigit && c.isDigit && d.isDigit && e.isDigit && f.isDigit
    then some [a, ':', c, d, ':', e, f] else none
  | _ => none

/-- Attempt of `\d{1,2}:\d{2}:\d{2}` at one position: two-digit hour
first, then the one-digit backtrack. -/
def tsAt (l : List Char) : Option (List Char) :=
  match tsAt2 l with
  | some x => some x
  | none => tsAt1 l

/-- `re.search(r"\d{1,2}:\d{2}:\d{2}", raw)`: leftmost match, greedy at
each position. -/
def ts_search : List Char → Option (List Char)
  | [] => none
  | c :: rest =>
    match tsAt (c :: rest) with
    | some x => some x
    | none => ts_search rest

example : ts_search "at 1:23:45 maybe".data = some "1:23:45".data := rfl
example : ts_search "123:45:67".data = some "23:45:67".data := rfl
example : ts_search "no time here".data = none := rfl

/-- Response-handling stage of `find_timestamp_with_llm` (src/main.py,
lines 379-397): strict JSON parse with a `"00:00:00"` default for a
missing key; any exception in that attempt falls back to the regex
scan of the raw text, defaulting to `"00:00:00"`; the value then goes
through the split-on-colon normalization.  A non-string `timestamp`
value raises `AttributeError` at the split, outside the try block. -/
def llm_parse_stage (outcome : LlmJsonOutcome) (raw : String) : Except String String :=
  match outcome with
  | .notJson | .nonMapping =>
    .ok (normalize_timestamp
      (match ts_search raw.data with
       | some m => String.mk m
       | none => "00:00:00"))
  | .mapping none => .ok (normalize_timestamp "00:00:00")
  | .mapping (some (.str s)) => .ok (normalize_timestamp s)
  | .mapping (some .nonStr) => .error "AttributeError"

theorem split_colon_ne_nil (l : List Char) : split_colon l ≠ [] := by
  cases l with
  | nil => simp [split_colon]
  | cons c rest =>
    simp only [split_colon]
    split
    · simp
    · split <;> simp

theorem split_colon_no_colon {l p : List Char} (h : p ∈ split_colon l) : ':' ∉ p := by
  induction l generalizing p with
  | nil =>
    simp [split_colon] at h
    subst h
    simp
  | cons c rest ih =>
    simp only [split_colon] at h
    by_cases hc : c = ':'
    · rw [if_pos hc] at h
      rcases List.mem_cons.mp h with h1 | h2
      · subst h1; simp
      · exact ih h2
    · rw [if_neg hc] at h
      cases hsp : split_colon rest with
      | nil => exact absurd hsp (split_colon_ne_nil rest)
      | cons q qs =>
        rw [hsp] at h
        rcases List.mem_cons.mp h with h1 | h2
        · subst h1
          intro hm
          rcases List.mem_cons.mp hm with h3 | h4
          · exact hc h3.symm
          · exact ih (by rw [hsp]; exact List.mem_cons_self q qs) h4
        · exact ih (by rw [hsp]; exact List.mem_cons_of_mem q h2)

theorem split_colon_of_no_colon {l : List Char} (h : ':' ∉ l) : split_colon l = [l] := by
  induction l with
  | nil => rfl
  | cons c rest ih =>
    simp only [split_colon]
    rw [if_neg fun hc => h (by simp [hc])]
    rw [ih fun hm => h (List.mem_cons_of_mem c hm)]

theorem split_colon_append {a : List Char} (b : List Char) (h : ':' ∉ a) :
    split_colon (a ++ ':' :: b) = a :: split_colon b := by
  induction a with
  | nil => simp [split_colon]
  | cons c arest ih =>
    simp only [List.cons_append, split_colon, List.append_eq]
    rw [if_neg fun hc => h (by simp [hc])]
    rw [ih fun hm => h (List.mem_cons_of_mem c hm)]

theorem zfill2_length (l : List Char) : 2 ≤ (zfill2 l).length := by
  unfold zfill2
  split
  next h => exact h
  next h => split <;> simp <;> omega

theorem mem_zfill2 {c : Char} {l : List Char} (h : c ∈ zfill2 l) : c ∈ l ∨ c = '0' := by
  unfold zfill2 at h
  split at h
  · exact .inl h
  · split at h
    next rest =>
      rcases List.mem_cons.mp h with h1 | h2
      · exact .inl (h1 ▸ List.mem_cons_self _ _)
      · rcases List.mem_append.mp h2 with h3 | h4
        · exact .inr (List.eq_of_mem_replicate h3)
        · exact .inl (List.mem_cons_of_mem _ h4)
    next rest =>
      rcases List.mem_cons.mp h with h1 | h2
      · exact .inl (h1 ▸ List.mem_cons_self _ _)
      · rcases List.mem_append.mp h2 with h3 | h4
        · exact .inr (List.eq_of_mem_replicate h3)
        · exact .inl (List.mem_cons_of_mem _ h4)
    next =>
      rcases List.mem_append.mp h with h1 | h2
      · exact .inr (List.eq_of_mem_replicate h1)
      · exact .inl h2

theorem zfill2_of_length {l : List Char} (h : 2 ≤ l.length) : zfill2 l = l := by
  unfold zfill2
  rw [if_pos h]

theorem zfill2_no_colon {l : List Char} (h : ':' ∉ l) : ':' ∉ zfill2 l := by
  intro hm
  rcases mem_zfill2 hm with h1 | h1
  · exact h h1
  · exact absurd h1 (by decide)

theorem normalize_fixed {a b c : List Char} (ha : ':' ∉ a) (hb : ':' ∉ b) (hc : ':' ∉ c)
    (la : 2 ≤ a.length) (lb : 2 ≤ b.length) (lc : 2 ≤ c.length) :
    normalize_timestamp (String.mk (a ++ ':' :: (b ++ ':' :: c)))
      = String.mk (a ++ ':' :: (b ++ ':' :: c)) := by
  have hdata : (String.mk (a ++ ':' :: (b ++ ':' :: c))).data = a ++ ':' :: (b ++ ':' :: c) := rfl
  simp only [normalize_timestamp, hdata, split_colon_append _ ha, split_colon_append _ hb,
    split_colon_of_no_colon hc]
  rw [zfill2_of_length la, zfill2_of_length lb, zfill2_of_length lc]
  simp [List.append_assoc]

theorem normalize_output_form (s : String) :
    normalize_timestamp s = "00:00:00" ∨
    ∃ a b c : List Char, normalize_timestamp s = String.mk (a ++ ':' :: (b ++ ':' :: c)) ∧
      (':' ∉ a ∧ ':' ∉ b ∧ ':' ∉ c) ∧ (2 ≤ a.length ∧ 2 ≤ b.length ∧ 2 ≤ c.length) := by
  rcases hsp : split_colon s.data with _ | ⟨p0, tl0⟩
  · exact absurd hsp (split_colon_ne_nil _)
  rcases tl0 with _ | ⟨p1, tl1⟩
  · left
    simp [normalize_timestamp, hsp]
  rcases tl1 with _ | ⟨p2, tl2⟩
  · right
    have h0 : ':' ∉ p0 := split_colon_no_colon (by rw [hsp]; simp)
    have h1 : ':' ∉ p1 := split_colon_no_colon (by rw [hsp]; simp)
    refine ⟨['0', '0'], zfill2 p0, zfill2 p1, ?_, ⟨by decide, zfill2_no_colon h0, zfill2_no_colon h1⟩,
      by decide, zfill2_length p0, zfill2_length p1⟩
    simp [normalize_timestamp, hsp, List.append_assoc]
  rcases tl2 with _ | ⟨p3, tl3⟩
  · right
    have h0 : ':' ∉ p0 := split_colon_no_colon (by rw [hsp]; simp)
    have h1 : ':' ∉ p1 := split_colon_no_colon (by rw [hsp]; simp)
    have h2 : ':' ∉ p2 := split_colon_no_colon (by rw [hsp]; simp)
    refine ⟨zfill2 p0, zfill2 p1, zfill2 p2, ?_,
      ⟨zfill2_no_colon h0, zfill2_no_colon h1, zfill2_no_colon h2⟩,
      zfill2_length p0, zfill2_length p1, zfill2_length p2⟩
    simp [normalize_timestamp, hsp, List.append_assoc]
  · left
    simp [normalize_timestamp, hsp]

/-- C6: the split-on-colon normalization at the end of
`find_timestamp_with_llm` maps a two-field input to `MM:SS` with `00`
hours, a three-field input to two-digit zero-padded fields, anything
else to `00:00:00`, and it is idempotent: normalizing a normalized
value changes nothing; in particular `"01:02:03"` is fixed, `"5:47"`
becomes `"00:05:47"`, `"1:2:3"` becomes `"01:02:03"` and `"abc"`
becomes `"00:00:00"`. -/
theorem c6_normalize_timestamp_idempotent :
    (∀ s : String, normalize_timestamp (normalize_timestamp s) = normalize_timestamp s) ∧
    normalize_timestamp "01:02:03" = "01:02:03" ∧
    normalize_timestamp "5:47" = "00:05:47" ∧
    normalize_timestamp "1:2:3" = "01:02:03" ∧
    normalize_timestamp "abc" = "00:00:00" := by
  refine ⟨?_, rfl, rfl, rfl, rfl⟩
  intro s
  rcases normalize_output_form s with h | ⟨a, b, c, heq, ⟨ha, hb, hc⟩, la, lb, lc⟩
  · rw [h]
    rfl
  · rw [heq]
    exact normalize_fixed ha hb hc la lb lc

theorem int02_natCast (k : Nat) : int02 (k : ℤ) = pad_zero2 (toString k) := by
  unfold int02
  rw [if_neg (Int.not_lt.mpr (Int.natCast_nonneg k))]
  rfl

/-- C7: for every non-negative number of seconds, `seconds_to_hhmmss`
renders the truncated integer through the decomposition
`h = s / 3600`, `m = (s % 3600) / 60`, `s % 60` in natural-number
arithmetic, each field zero-padded to two digits; in particular 347
seconds render as `"00:05:47"`. -/
theorem c7_seconds_to_hhmmss_decomposition :
    (∀ q : ℚ, 0 ≤ q →
      seconds_to_hhmmss q =
        pad_zero2 (toString ((rat_trunc q).toNat / 3600)) ++ ":" ++
        pad_zero2 (toString ((rat_trunc q).toNat % 3600 / 60)) ++ ":" ++
        pad_zero2 (toString ((rat_trunc q).toNat % 60))) ∧
    seconds_to_hhmmss 347 = "00:05:47" := by
  constructor
  · intro q hq
    have ht : 0 ≤ rat_trunc q :=
      Int.tdiv_nonneg (Rat.num_nonneg.mpr hq) (Int.natCast_nonneg q.den)
    have hn : rat_trunc q = ((rat_trunc q).toNat : ℤ) := (Int.toNat_of_nonneg ht).symm
    have hfd : ∀ a b : Nat, Int.fdiv (a : ℤ) (b : ℤ) = ((a / b : Nat) : ℤ) :=
      fun a b => (Int.ofNat_fdiv a b).symm
    have hem : ∀ a b : Nat, Int.emod (a : ℤ) (b : ℤ) = ((a % b : Nat) : ℤ) :=
      fun _ _ => rfl
    rw [seconds_to_hhmmss]
    conv_lhs => rw [hn]
    rw [show ((3600 : ℤ) = ((3600 : Nat) : ℤ)) from rfl, show ((60 : ℤ) = ((60 : Nat) : ℤ)) from rfl]
    rw [hfd, hem, hfd, hem, int02_natCast, int02_natCast, int02_natCast]
  · simp [seconds_to_hhmmss, rat_trunc]
    rfl

theorem c7_seconds_to_hhmmss_decomposition_witness :
    (0 : ℚ) ≤ 347 ∧
    seconds_to_hhmmss 347 =
      pad_zero2 (toString ((rat_trunc 347).toNat / 3600)) ++ ":" ++
      pad_zero2 (toString ((rat_trunc 347).toNat % 3600 / 60)) ++ ":" ++
      pad_zero2 (toString ((rat_trunc 347).toNat % 60)) ∧
    seconds_to_hhmmss 347 = "00:05:47" :=
  ⟨by norm_num, c7_seconds_to_hhmmss_decomposition.1 347 (by norm_num),
   c7_seconds_to_hhmmss_decomposition.2⟩

theorem grab11_spec {l id : List Char} (h : grab11 l = some id) :
    id.length = 11 ∧ id.all isIdChar = true := by
  simp only [grab11] at h
  split at h
  next hc =>
    cases h
    simp only [Bool.and_eq_true, decide_eq_true_eq] at hc
    exact ⟨hc.1, hc.2⟩
  next => cases h

theorem grab11_exact {id : List Char} (h11 : id.length = 11)
    (hall : id.all isIdChar = true) : grab11 id = some id := by
  have ht : id.take 11 = id := h11 ▸ List.take_length id
  unfold grab11
  rw [ht, if_pos (by simp [h11, hall])]

theorem pat1At_sound {t id : List Char} (h : pat1At t = some id) :
    id.length = 11 ∧ id.all isIdChar = true := by
  unfold pat1At at h
  split at h
  · exact grab11_spec h
  · exact grab11_spec h
  · cases h

theorem pat2At_sound {t id : List Char} (h : pat2At t = some id) :
    id.length = 11 ∧ id.all isIdChar = true := by
  unfold pat2At at h
  split at h
  · exact grab11_spec h
  · cases h

theorem pat3At_sound {t id : List Char} (h : pat3At t = some id) :
    id.length = 11 ∧ id.all isIdChar = true := by
  unfold pat3At at h
  split at h
  · exact grab11_spec h
  · cases h

theorem searchPat_sound {patAt : List Char → Option (List Char)}
    (hpat : ∀ t id, patAt t = some id → id.length = 11 ∧ id.all isIdChar = true) :
    ∀ l id, searchPat patAt l = some id → id.length = 11 ∧ id.all isIdChar = true := by
  intro l
  induction l with
  | nil => intro id h; cases h
  | cons c rest ih =>
    intro id h
    unfold searchPat at h
    split at h
    next heq => cases h; exact hpat _ _ heq
    next => exact ih id h

/-- C3: wrapping a valid 11-character id in any recognized URL shape
(`v=`-parameter, path segment, `youtu.be/`, `embed/`) makes
`extract_video_id` return exactly that id; an input on which no
pattern matches anywhere fails with the invalid-URL error; and every
id ever returned is an 11-character `[0-9A-Za-z_-]` string. -/
theorem c3_extract_video_id_shapes :
    (∀ id : List Char, id.length = 11 → id.all isIdChar = true →
      extract_video_id (String.mk ('v' :: '=' :: id)) = .ok (String.mk id) ∧
      extract_video_id (String.mk ('/' :: id)) = .ok (String.mk id) ∧
      extract_video_id (String.mk ('y' :: 'o' :: 'u' :: 't' :: 'u' :: '.' :: 'b' :: 'e' :: '/' :: id))
        = .ok (String.mk id) ∧
      extract_video_id (String.mk ('e' :: 'm' :: 'b' :: 'e' :: 'd' :: '/' :: id))
        = .ok (String.mk id)) ∧
    (∀ url : String, searchPat pat1At url.data = none → searchPat pat2At url.data = none →
      searchPat pat3At url.data = none →
      extract_video_id url = .error ("Could not extract video ID from URL: " ++ url)) ∧
    (∀ url id : String, extract_video_id url = .ok id →
      id.data.length = 11 ∧ id.data.all isIdChar = true) := by
  refine ⟨?_, ?_, ?_⟩
  · intro id h11 hall
    have hg : grab11 id = some id := grab11_exact h11 hall
    refine ⟨?_, ?_, ?_, ?_⟩ <;>
      simp [extract_video_id, searchPat, pat1At, hg]
  · intro url h1 h2 h3
    simp [extract_video_id, h1, h2, h3]
  · intro url id h
    unfold extract_video_id at h
    split at h
    next heq => cases h; exact searchPat_sound (fun _ _ => pat1At_sound) _ _ heq
    split at h
    next heq => cases h; exact searchPat_sound (fun _ _ => pat2At_sound) _ _ heq
    split at h
    next heq => cases h; exact searchPat_sound (fun _ _ => pat3At_sound) _ _ heq
    next => cases h

theorem c3_extract_video_id_shapes_witness :
    extract_video_id "v=dQw4w9WgXcQ" = .ok "dQw4w9WgXcQ" ∧
    extract_video_id "youtu.be/dQw4w9WgXcQ" = .ok "dQw4w9WgXcQ" ∧
    extract_video_id "nonsense" = .error "Could not extract video ID from URL: nonsense" ∧
    ("dQw4w9WgXcQ" : String).data.length = 11 := by
  have h1 := (c3_extract_video_id_shapes.1 "dQw4w9WgXcQ".data (by decide) (by decide))
  exact ⟨h1.1, h1.2.2.1,
    c3_extract_video_id_shapes.2.1 "nonsense" rfl rfl rfl,
    (c3_extract_video_id_shapes.2.2 "v=dQw4w9WgXcQ" "dQw4w9WgXcQ" h1.1).1⟩

theorem searchPat_suffix_of_some {patAt : List Char → Option (List Char)}
    {l x : List Char} (h : searchPat patAt l = some x) :
    ∃ t, t <:+ l ∧ patAt t = some x := by
  induction l with
  | nil => cases h
  | cons c rest ih =>
    unfold searchPat at h
    split at h
    next heq => exact ⟨c :: rest, List.suffix_rfl, by rw [heq, h]⟩
    next =>
      obtain ⟨t, ht, hp⟩ := ih h
      exact ⟨t, ht.trans (List.suffix_cons c rest), hp⟩

theorem searchPat_isSome_of_suffix {patAt : List Char → Option (List Char)}
    (hnil : patAt [] = none) {l t x : List Char} (hs : t <:+ l)
    (hp : patAt t = some x) : (searchPat patAt l).isSome = true := by
  induction l with
  | nil =>
    rw [List.suffix_nil.mp hs] at hp
    rw [hnil] at hp
    cases hp
  | cons c rest ih =>
    rcases List.suffix_cons_iff.mp hs with h1 | h1
    · subst h1
      simp [searchPat, hp]
    · unfold searchPat
      split
      · rfl
      · exact ih h1

theorem pat1At_of_pat2At {t id : List Char} (h : pat2At t = some id) :
    ∃ t', t' <:+ t ∧ pat1At t' = some id := by
  unfold pat2At at h
  split at h
  next rest =>
    exact ⟨'/' :: rest, ⟨['y', 'o', 'u', 't', 'u', '.', 'b', 'e'], rfl⟩, h⟩
  next => cases h

theorem pat1At_of_pat3At {t id : List Char} (h : pat3At t = some id) :
    ∃ t', t' <:+ t ∧ pat1At t' = some id := by
  unfold pat3At at h
  split at h
  next rest =>
    exact ⟨'/' :: rest, ⟨['e', 'm', 'b', 'e', 'd'], rfl⟩, h⟩
  next => cases h

/-- C10: wherever the `youtu.be/` or `embed/` pattern matches, the first
pattern also matches (the `/` before the id is itself a match site), so
`extract_video_id` coincides with the variant that only ever consults
the first pattern. -/
theorem c10_first_pattern_subsumes :
    (∀ l : List Char, (searchPat pat2At l).isSome = true → (searchPat pat1At l).isSome = true) ∧
    (∀ l : List Char, (searchPat pat3At l).isSome = true → (searchPat pat1At l).isSome = true) ∧
    (∀ url : String, extract_video_id url = extract_video_id_pat1_only url) := by
  have key2 : ∀ l : List Char, (searchPat pat2At l).isSome = true →
      (searchPat pat1At l).isSome = true := by
    intro l h
    obtain ⟨x, hx⟩ := Option.isSome_iff_exists.mp h
    obtain ⟨t, ht, hp⟩ := searchPat_suffix_of_some hx
    obtain ⟨t', ht', hp'⟩ := pat1At_of_pat2At hp
    exact searchPat_isSome_of_suffix rfl (ht'.trans ht) hp'
  have key3 : ∀ l : List Char, (searchPat pat3At l).isSome = true →
      (searchPat pat1At l).isSome = true := by
    intro l h
    obtain ⟨x, hx⟩ := Option.isSome_iff_exists.mp h
    obtain ⟨t, ht, hp⟩ := searchPat_suffix_of_some hx
    obtain ⟨t', ht', hp'⟩ := pat1At_of_pat3At hp
    exact searchPat_isSome_of_suffix rfl (ht'.trans ht) hp'
  refine ⟨key2, key3, ?_⟩
  intro url
  unfold extract_video_id extract_video_id_pat1_only
  cases h1 : searchPat pat1At url.data with
  | some id => rfl
  | none =>
    cases h2 : searchPat pat2At url.data with
    | some id =>
      have := key2 url.data (by rw [h2]; rfl)
      rw [h1] at this
      cases this
    | none =>
      cases h3 : searchPat pat3At url.data with
      | some id =>
        have := key3 url.data (by rw [h3]; rfl)
        rw [h1] at this
        cases this
      | none => rfl

theorem c10_first_pattern_subsumes_witness :
    (searchPat pat2At "https://youtu.be/dQw4w9WgXcQ".data).isSome = true ∧
    (searchPat pat1At "https://youtu.be/dQw4w9WgXcQ".data).isSome = true ∧
    extract_video_id "https://youtu.be/dQw4w9WgXcQ"
      = extract_video_id_pat1_only "https://youtu.be/dQw4w9WgXcQ" :=
  ⟨rfl, c10_first_pattern_subsumes.1 _ rfl, c10_first_pattern_subsumes.2.2 _⟩

theorem nth_strategy_zero (env : TranscriptEnv) :
    nth_strategy env 0 = env.ytFetch.map (fun l => l.map fun s => ⟨s.text, s.start⟩) := rfl

theorem nth_strategy_one (env : TranscriptEnv) :
    nth_strategy env 1 = get_transcript_innertube env.androidPlayer env.androidFetch := rfl

theorem nth_strategy_two (env : TranscriptEnv) :
    nth_strategy env 2 = get_transcript_innertube env.iosPlayer env.iosFetch := rfl

theorem nth_strategy_three (env : TranscriptEnv) :
    nth_strategy env 3 = get_transcript_innertube env.tvPlayer env.tvFetch := rfl

theorem nth_strategy_four (env : TranscriptEnv) :
    nth_strategy env 4 = get_transcript_third_party env.kome env.ytc := rfl

theorem run_chain_count_le {l : List (String × Except String (List TranscriptEntry))} :
    ∀ (errs : List String) (i : Nat) (h : i < l.length) (t : List TranscriptEntry),
      (l.get ⟨i, h⟩).2 = .ok t → (run_chain l errs).2 ≤ i + 1 := by
  induction l with
  | nil => intro errs i h; simp at h
  | cons q rest ih =>
    intro errs i h t hok
    obtain ⟨label, r⟩ := q
    cases i with
    | zero =>
      simp only [List.get] at hok
      simp only [run_chain, hok]
      omega
    | succ i' =>
      cases r with
      | ok t' => simp only [run_chain]; omega
      | error e =>
        simp only [run_chain]
        simp only [List.get] at hok
        have := ih (errs ++ [label ++ e.take 50]) i' (by simpa using Nat.lt_of_succ_lt_succ h) t hok
        omega

theorem run_chain_error_all {l : List (String × Except String (List TranscriptEntry))} :
    ∀ (errs : List String) (msg : String), (run_chain l errs).1 = .error msg →
      ∀ p ∈ l, ∃ e, p.2 = .error e := by
  induction l with
  | nil => intro errs msg _ p hp; cases hp
  | cons q rest ih =>
    intro errs msg h p hp
    obtain ⟨label, r⟩ := q
    cases r with
    | ok t =>
      simp [run_chain] at h
    | error e =>
      rcases List.mem_cons.mp hp with h1 | h1
      · subst h1
        exact ⟨e, rfl⟩
      · simp only [run_chain] at h
        exact ih (errs ++ [label ++ e.take 50]) msg h p h1

theorem run_chain_ok_mem {l : List (String × Except String (List TranscriptEntry))} :
    ∀ (errs : List String) (t : List TranscriptEntry), (run_chain l errs).1 = .ok t →
      ∃ p ∈ l, p.2 = .ok t := by
  induction l with
  | nil => intro errs t h; simp [run_chain] at h
  | cons q rest ih =>
    intro errs t h
    obtain ⟨label, r⟩ := q
    cases r with
    | ok t' =>
      simp only [run_chain] at h
      exact ⟨(label, .ok t'), List.mem_cons_self _ _, by rw [h]⟩
    | error e =>
      simp only [run_chain] at h
      obtain ⟨p, hp, hpok⟩ := ih (errs ++ [label ++ e.take 50]) t h
      exact ⟨p, List.mem_cons_of_mem _ hp, hpok⟩

/-- C1: `get_transcript` runs the five strategies in the fixed source
order captions-library, Android, iOS, TV, third-party (witnessed by the
labels) and short-circuits on the first success: whenever strategy `k`
succeeds, no strategy with a larger index is invoked. -/
theorem c1_fallback_chain_short_circuits :
    (∀ env : TranscriptEnv, (strategy_results env).map Prod.fst =
      ["yt-api: ", "android: ", "ios: ", "tv: ", "3rd-party: "]) ∧
    (∀ (env : TranscriptEnv) (k : Fin 5) (t : List TranscriptEntry),
      nth_strategy env k = .ok t →
      ∀ j : Fin 5, k < j → ¬ strategy_invoked env j) := by
  constructor
  · intro env; rfl
  · intro env k t hk j hkj
    have hcount : invoked_count env ≤ k.val + 1 := by
      have hlt : k.val < (strategy_results env).length := by
        rw [strategy_results_length]; exact k.isLt
      exact run_chain_count_le [] k.val hlt t hk
    intro hj
    have h1 : j.val < k.val + 1 := lt_of_lt_of_le hj hcount
    have h2 : k.val < j.val := hkj
    omega

/-- Environment in which the captions-library strategy already
succeeds. -/
def env_first_ok : TranscriptEnv where
  ytFetch := .ok [⟨"hello", 1⟩]
  androidPlayer := .error "net down"
  androidFetch := fun _ => .error "net down"
  iosPlayer := .error "net down"
  iosFetch := fun _ => .error "net down"
  tvPlayer := .error "net down"
  tvFetch := fun _ => .error "net down"
  kome := none
  ytc := none

theorem c1_fallback_chain_short_circuits_witness :
    nth_strategy env_first_ok 0 = .ok [⟨"hello", 1⟩] ∧
    (0 : Fin 5) < (1 : Fin 5) ∧
    ¬ strategy_invoked env_first_ok 1 :=
  ⟨rfl, by decide,
   c1_fallback_chain_short_circuits.2 env_first_ok 0 [⟨"hello", 1⟩] rfl 1 (by decide)⟩

/-- C2: `get_transcript` fails exactly when all five strategies failed;
its diagnostic is the fixed header followed by the five per-strategy
records, in order, each a short label plus the strategy's error message
truncated to 50 characters, joined with `; `; and no transcript is
returned in that case. -/
theorem c2_failure_aggregation :
    (∀ (env : TranscriptEnv) (e0 e1 e2 e3 e4 : String),
      nth_strategy env 0 = .error e0 → nth_strategy env 1 = .error e1 →
      nth_strategy env 2 = .error e2 → nth_strategy env 3 = .error e3 →
      nth_strategy env 4 = .error e4 →
      get_transcript env = .error ("All transcript methods failed: " ++
        String.intercalate "; "
          ["yt-api: " ++ e0.take 50, "android: " ++ e1.take 50, "ios: " ++ e2.take 50,
           "tv: " ++ e3.take 50, "3rd-party: " ++ e4.take 50]) ∧
      ∀ t, get_transcript env ≠ .ok t) ∧
    (∀ (env : TranscriptEnv) (msg : String), get_transcript env = .error msg →
      ∀ k : Fin 5, ∃ e, nth_strategy env k = .error e) := by
  constructor
  · intro env e0 e1 e2 e3 e4 h0 h1 h2 h3 h4
    rw [nth_strategy_zero] at h0
    rw [nth_strategy_one] at h1
    rw [nth_strategy_two] at h2
    rw [nth_strategy_three] at h3
    rw [nth_strategy_four] at h4
    have hmain : get_transcript env = .error ("All transcript methods failed: " ++
        String.intercalate "; "
          ["yt-api: " ++ e0.take 50, "android: " ++ e1.take 50, "ios: " ++ e2.take 50,
           "tv: " ++ e3.take 50, "3rd-party: " ++ e4.take 50]) := by
      simp only [get_transcript, strategy_results, h0, h1, h2, h3, h4, run_chain]
      simp
    exact ⟨hmain, fun t ht => by rw [hmain] at ht; cases ht⟩
  · intro env msg h k
    have hlt : k.val < (strategy_results env).length := by
      rw [strategy_results_length]; exact k.isLt
    have hmem : ((strategy_results env).get (Fin.cast (strategy_results_length env).symm k))
        ∈ strategy_results env := List.get_mem _ _ hlt
    exact run_chain_error_all [] msg h _ hmem

/-- Environment in which every strategy fails. -/
def env_all_fail : TranscriptEnv where
  ytFetch := .error "boom0"
  androidPlayer := .error "boom1"
  androidFetch := fun _ => .error "unused"
  iosPlayer := .error "boom2"
  iosFetch := fun _ => .error "unused"
  tvPlayer := .error "boom3"
  tvFetch := fun _ => .error "unused"
  kome := none
  ytc := none

theorem c2_failure_aggregation_witness :
    get_transcript env_all_fail = .error
      ("All transcript methods failed: " ++ String.intercalate "; "
        ["yt-api: " ++ ("boom0").take 50, "android: " ++ ("boom1").take 50,
         "ios: " ++ ("boom2").take 50, "tv: " ++ ("boom3").take 50,
         "3rd-party: " ++ ("Third-party transcript APIs failed").take 50]) ∧
    ∀ t, get_transcript env_all_fail ≠ .ok t :=
  c2_failure_aggregation.1 env_all_fail "boom0" "boom1" "boom2" "boom3"
    "Third-party transcript APIs failed" rfl rfl rfl rfl rfl

/-- C5: track selection prefers the first track whose language code
starts with `en` when its URL is usable; with no `en` track the first
track's URL is used; and selection fails exactly when the list is
empty or neither the preferred candidate nor the first track carries a
usable (present, non-empty) URL. -/
theorem c5_caption_track_selection :
    select_caption_url [] = .error "No captions available" ∧
    (∀ (tracks : List CaptionTrack) (t : CaptionTrack) (u : String),
      tracks.find? langStartsEn = some t → t.baseUrl = some u → u ≠ "" →
      select_caption_url tracks = .ok u) ∧
    (∀ (first : CaptionTrack) (rest : List CaptionTrack) (u : String),
      (first :: rest).find? langStartsEn = none → first.baseUrl = some u → u ≠ "" →
      select_caption_url (first :: rest) = .ok u) ∧
    (∀ tracks : List CaptionTrack,
      (∃ e, select_caption_url tracks = .error e) ↔
        (tracks = [] ∨
          (pyTruthy ((tracks.find? langStartsEn).bind fun t => t.baseUrl) = false ∧
           pyTruthy (tracks.head?.bind fun t => t.baseUrl) = false))) := by
  refine ⟨rfl, ?_, ?_, ?_⟩
  · intro tracks t u hf hb hu
    cases tracks with
    | nil => simp at hf
    | cons first rest =>
      simp only [select_caption_url, hf, Option.bind, pyTruthy, hb]
      rw [if_neg hu]
      simp [hu]
  · intro first rest u hf hb hu
    simp only [select_caption_url, hf, Option.bind, pyTruthy, hb]
    simp [hu]
  · intro tracks
    cases tracks with
    | nil => simp [select_caption_url]
    | cons first rest =>
      simp only [select_caption_url, List.head?, Option.bind]
      cases hfe : (first :: rest).find? langStartsEn with
      | none =>
        cases hb : first.baseUrl with
        | none => simp [pyTruthy, hb]
        | some u =>
          by_cases hu : u = ""
          · subst hu; simp [pyTruthy, hb]
          · simp [pyTruthy, hb, hu]
      | some t =>
        cases hb : t.baseUrl with
        | none =>
          cases hb0 : first.baseUrl with
          | none => simp [pyTruthy, hb, hb0]
          | some u =>
            by_cases hu : u = ""
            · subst hu; simp [pyTruthy, hb, hb0]
            · simp [pyTruthy, hb, hb0, hu]
        | some u =>
          by_cases hu : u = ""
          · subst hu
            cases hb0 : first.baseUrl with
            | none => simp [pyTruthy, hb, hb0]
            | some u' =>
              by_cases hu' : u' = ""
              · subst hu'; simp [pyTruthy, hb, hb0]
              · simp [pyTruthy, hb, hb0, hu']
          · simp [pyTruthy, hb, hu]

theorem c5_caption_track_selection_witness :
    ([⟨some "fr", some "F"⟩, ⟨some "en", some "E"⟩] : List CaptionTrack).find? langStartsEn
      = some ⟨some "en", some "E"⟩ ∧
    select_caption_url [⟨some "fr", some "F"⟩, ⟨some "en", some "E"⟩] = .ok "E" ∧
    select_caption_url [] = .error "No captions available" :=
  ⟨rfl,
   c5_caption_track_selection.2.1 [⟨some "fr", some "F"⟩, ⟨some "en", some "E"⟩]
     ⟨some "en", some "E"⟩ "E" rfl rfl (by decide),
   c5_caption_track_selection.1⟩

/-- C4 fails as stated: the parser stores the whitespace-stripped
concatenation of the segment texts, not the concatenation itself.  For
a single event whose one segment text is `" a"`, the produced entry
text is `"a"` while the concatenation of the segment texts is `" a"`. -/
theorem c4_caption_parser_counterexample :
    parse_caption_events [⟨some 1000, some [⟨some " a"⟩]⟩]
      = [⟨"a", 1000 / 1000⟩] ∧
    String.join (([⟨some " a"⟩] : List CaptionSeg).map fun sg => sg.utf8.getD "") = " a" ∧
    (⟨"a", 1000 / 1000⟩ : TranscriptEntry).text ≠ " a" :=
  ⟨rfl, rfl, by decide⟩

/-- C4 (amended): the caption-payload parser, given a structured body,
emits one entry per event carrying a segment list, with start equal to
the millisecond offset divided by 1000 and text equal to the
whitespace-stripped concatenation of the segment text fields, dropping
entries that are blank after stripping; the markup fallback extracts
`<text start=...>...</text>` runs and decodes the entity escapes; and a
structured payload with two events of one non-blank segment each
parses to exactly two entries. -/
theorem c4_caption_parser_amended :
    (∀ events : List CaptionEvent,
      parse_caption_events events = events.filterMap fun ev =>
        ev.segs.bind fun segs =>
          if py_strip (String.join (segs.map fun sg => sg.utf8.getD "")) = "" then none
          else some ⟨py_strip (String.join (segs.map fun sg => sg.utf8.getD "")),
            (ev.tStartMs.getD 0) / 1000⟩) ∧
    (decode_entities "&amp;" = "&" ∧ decode_entities "&#39;" = "'" ∧
     decode_entities "&lt;" = "<" ∧ decode_entities "&gt;" = ">" ∧
     decode_entities "&quot;" = "\"" ∧ decode_entities "&nbsp;" = " ") ∧
    parse_caption_events [⟨some 1000, some [⟨some "hello"⟩]⟩, ⟨some 2500, some [⟨some "world"⟩]⟩]
      = [⟨"hello", 1000 / 1000⟩, ⟨"world", 2500 / 1000⟩] ∧
    parse_caption_xml "<text start=\"1.5\">a &amp; b&#39;s</text><text start=\"7\">ok</text>"
      = .ok [⟨"a & b's", 1 + 5 / 10⟩, ⟨"ok", 7⟩] := by
  refine ⟨?_, ⟨rfl, rfl, rfl, rfl, rfl, rfl⟩, rfl, ?_⟩
  · intro events
    unfold parse_caption_events
    exact congrArg (fun f => events.filterMap f) (funext fun ev => by cases ev.segs <;> rfl)
  · simp [parse_caption_xml]
    rfl

theorem parse_captions_ok_ne_nil {body : CaptionBody} {t : List TranscriptEntry}
    (h : parse_captions body = .ok t) : t ≠ [] := by
  unfold parse_captions at h
  split at h
  · split at h
    · cases h
    next t' =>
      split at h
      · cases h
      next hne =>
        cases h
        exact hne
  next hne =>
    cases h
    exact hne

theorem fetch_captions_ok_ne_nil {tracks : List CaptionTrack}
    {fetch : String → Except String CaptionBody} {t : List TranscriptEntry}
    (h : fetch_captions_from_tracks tracks fetch = .ok t) : t ≠ [] := by
  unfold fetch_captions_from_tracks at h
  split at h
  · cases h
  · split at h
    · cases h
    · exact parse_captions_ok_ne_nil h

theorem innertube_ok_ne_nil {player : Except String PlayerResponse}
    {fetch : String → Except String CaptionBody} {t : List TranscriptEntry}
    (h : get_transcript_innertube player fetch = .ok t) : t ≠ [] := by
  unfold get_transcript_innertube at h
  split at h
  · cases h
  · split at h
    · cases h
    · exact fetch_captions_ok_ne_nil h

theorem third_party_ok_ne_nil {kome : Option (Nat × KomeJson)} {ytc : Option (Nat × String)}
    {t : List TranscriptEntry} (h : get_transcript_third_party kome ytc = .ok t) : t ≠ [] := by
  unfold get_transcript_third_party at h
  split at h
  next t' hk =>
    cases h
    unfold kome_transcript at hk
    split at hk
    · cases hk
    · split at hk
      · split at hk
        · cases hk
        next hne =>
          cases hk
          exact hne
      · cases hk
  next =>
    split at h
    next t' hy =>
      cases h
      unfold ytc_transcript at hy
      split at hy
      · cases hy
      · split at hy
        · split at hy
          · cases hy
          · split at hy
            · cases hy
            next hne =>
              cases hy
              exact hne
        · cases hy
    next => cases h

/-- Environment in which the captions library itself returns an empty
snippet list: strategy 1 "succeeds" and `get_transcript` passes the
empty transcript through. -/
def env_empty_first : TranscriptEnv where
  ytFetch := .ok []
  androidPlayer := .error "unused"
  androidFetch := fun _ => .error "unused"
  iosPlayer := .error "unused"
  iosFetch := fun _ => .error "unused"
  tvPlayer := .error "unused"
  tvFetch := fun _ => .error "unused"
  kome := none
  ytc := none

/-- C9 fails as stated: when the captions library yields an empty fetch,
strategy 1 returns it unguarded and `get_transcript` succeeds with an
empty transcript. -/
theorem c9_nonempty_counterexample :
    get_transcript env_empty_first = .ok [] := rfl

/-- C9 (amended): strategies 2-5 can never succeed with an empty
transcript (their emptiness guards raise instead), so an empty
successful `get_transcript` can only arise from strategy 1 passing
through an empty captions-library fetch, which the code does not
guard. -/
theorem c9_nonempty_amended :
    (∀ (tracks : List CaptionTrack) (fetch : String → Except String CaptionBody)
      (t : List TranscriptEntry), fetch_captions_from_tracks tracks fetch = .ok t → t ≠ []) ∧
    (∀ (player : Except String PlayerResponse) (fetch : String → Except String CaptionBody)
      (t : List TranscriptEntry), get_transcript_innertube player fetch = .ok t → t ≠ []) ∧
    (∀ (kome : Option (Nat × KomeJson)) (ytc : Option (Nat × String))
      (t : List TranscriptEntry), get_transcript_third_party kome ytc = .ok t → t ≠ []) ∧
    (∀ (env : TranscriptEnv) (t : List TranscriptEntry),
      get_transcript env = .ok t → t = [] → env.ytFetch = .ok []) := by
  refine ⟨fun _ _ _ h => fetch_captions_ok_ne_nil h,
    fun _ _ _ h => innertube_ok_ne_nil h,
    fun _ _ _ h => third_party_ok_ne_nil h, ?_⟩
  intro env t h hnil
  subst hnil
  obtain ⟨p, hp, hpok⟩ := run_chain_ok_mem [] [] h
  simp only [strategy_results, List.mem_cons] at hp
  rcases hp with hp | hp | hp | hp | hp | hp
  · subst hp
    cases hyt : env.ytFetch with
    | error e => rw [hyt] at hpok; cases hpok
    | ok l0 =>
      rw [hyt] at hpok
      simp only [Except.map, Except.ok.injEq, List.map_eq_nil_iff] at hpok
      rw [hpok]
  · subst hp
    exact absurd rfl (innertube_ok_ne_nil hpok)
  · subst hp
    exact absurd rfl (innertube_ok_ne_nil hpok)
  · subst hp
    exact absurd rfl (innertube_ok_ne_nil hpok)
  · subst hp
    exact absurd rfl (third_party_ok_ne_nil hpok)
  · exact absurd hp (List.not_mem_nil p)

theorem c9_nonempty_amended_witness :
    fetch_captions_from_tracks [⟨some "en", some "u"⟩]
      (fun _ => .ok ⟨some [⟨some 0, some [⟨some "hi"⟩]⟩], ""⟩) = .ok [⟨"hi", 0 / 1000⟩] ∧
    ([(⟨"hi", 0 / 1000⟩ : TranscriptEntry)] : List TranscriptEntry) ≠ [] :=
  ⟨rfl, c9_nonempty_amended.1 [⟨some "en", some "u"⟩]
    (fun _ => .ok ⟨some [⟨some 0, some [⟨some "hi"⟩]⟩], ""⟩) [⟨"hi", 0 / 1000⟩] rfl⟩

/-- C8 fails as stated: when the model's JSON answer is a mapping whose
`timestamp` value is not a string (for example the number 5 in the
response below), the strict parse succeeds, the non-string value
reaches the split-on-colon step outside the try block, and the
`AttributeError` propagates instead of degrading to a default. -/
theorem c8_parse_stage_counterexample :
    llm_parse_stage (.mapping (some .nonStr)) "\x7b\"timestamp\": 5\x7d"
      = .error "AttributeError" := rfl

/-- C8 (amended): the response-handling stage produces a timestamp for
every outcome except a mapping with a non-string `timestamp` value: a
failed or non-mapping parse falls back to the regex scan, a missing
key and a match-free scan both default to `00:00:00`, and a string
value is normalized; only the non-string-value case raises. -/
theorem c8_parse_stage_amended :
    (∀ (outcome : LlmJsonOutcome) (raw : String),
      outcome ≠ .mapping (some .nonStr) → ∃ ts, llm_parse_stage outcome raw = .ok ts) ∧
    (∀ raw : String, llm_parse_stage (.mapping none) raw = .ok "00:00:00") ∧
    (∀ raw : String, ts_search raw.data = none →
      llm_parse_stage .notJson raw = .ok "00:00:00") ∧
    (∀ (raw s : String),
      llm_parse_stage (.mapping (some (.str s))) raw = .ok (normalize_timestamp s)) := by
  refine ⟨?_, fun raw => rfl, ?_, fun raw s => rfl⟩
  · intro outcome raw hne
    cases outcome with
    | notJson => exact ⟨_, rfl⟩
    | nonMapping => exact ⟨_, rfl⟩
    | mapping f =>
      cases f with
      | none => exact ⟨_, rfl⟩
      | some v =>
        cases v with
        | str s => exact ⟨_, rfl⟩
        | nonStr => exact absurd rfl hne
  · intro raw h
    simp only [llm_parse_stage, h]
    rfl

theorem c8_parse_stage_amended_witness :
    (LlmJsonOutcome.notJson ≠ .mapping (some .nonStr)) ∧
    (∃ ts, llm_parse_stage .notJson "the moment is 1:23:45 I think" = .ok ts) ∧
    llm_parse_stage .notJson "no timestamp at all" = .ok "00:00:00" :=
  ⟨by decide,
   c8_parse_stage_amended.1 .notJson "the moment is 1:23:45 I think" (by decide),
   c8_parse_stage_amended.2.2.1 "no timestamp at all" rfl⟩

end YTTF
